import Mathlib

/-!
Verification of the DayMark monthly data model and aggregation functions.

The definitions below are a shallow embedding of the relevant parts of the
repository:

* `src/utils/db.py`   — the Firestore adapter (`load_month_data`,
  `save_month_data`, `update_user_settings`).  The Firestore database is
  modelled as total functions from addresses to optional documents; a
  document is an association list of keys to values (Python dictionaries
  have unique keys and preserve insertion order, which an association list
  with pairwise-distinct keys models faithfully).
* `src/utils/graphs.py` — the pure computation parts of
  `calculate_daily_score`, `calculate_habit_consistency`,
  `plot_habit_consistency` (its sorting of the bar data) and
  `plot_individual_trends` (the per-habit day/value series it plots).
* `src/main.py`       — the session-cache lifecycle: the `save` function,
  the month-change handling block, the Add-Habit handler and the
  Remove-Task handler.
-/

/-- Habit data for one habit: day-of-month key (a decimal string) to
completed flag.  Mirrors the Python dict habit_name to day dict. -/
abbrev DayMap := List (String × Bool)

/-- All habits of a month: habit name to its `DayMap`. -/
abbrev HabitSet := List (String × DayMap)

/-- Journal entries of a month: day key to free text. -/
abbrev JournalMap := List (String × String)

/-- Tasks of one day: task name to completed flag. -/
abbrev TaskDay := List (String × Bool)

/-- Tasks of a month: day key to that day's tasks. -/
abbrev TaskMap := List (String × TaskDay)

/-- The Firestore state relevant to month buckets: for every user id and
month key, the three optional stored documents (habits, journal, tasks).
`none` models a document that does not exist. -/
structure Store where
  habits : String → String → Option HabitSet
  journal : String → String → Option JournalMap
  tasks : String → String → Option TaskMap

/-- A store with no documents at all. -/
def Store.empty : Store :=
  { habits := fun _ _ => none
    journal := fun _ _ => none
    tasks := fun _ _ => none }

/-- Embedding of `load_month_data` (src/utils/db.py, lines 117-152): read
the three documents of the month bucket in one batch, each defaulting to
the empty dict when the document does not exist. -/
def load_month_data (s : Store) (uid month_key : String) :
    HabitSet × JournalMap × TaskMap :=
  ((s.habits uid month_key).getD [],
   (s.journal uid month_key).getD [],
   (s.tasks uid month_key).getD [])

/-- Embedding of `save_month_data` (src/utils/db.py, lines 155-187): set
all three documents of the month bucket in one atomic batch, without
merge, i.e. each document is fully overwritten. -/
def save_month_data (s : Store) (uid month_key : String)
    (habits_data : HabitSet) (journal_data : JournalMap)
    (tasks_data : TaskMap) : Store :=
  { habits := fun u m =>
      if u = uid ∧ m = month_key then some habits_data else s.habits u m
    journal := fun u m =>
      if u = uid ∧ m = month_key then some journal_data else s.journal u m
    tasks := fun u m =>
      if u = uid ∧ m = month_key then some tasks_data else s.tasks u m }

/-- The settings documents of the store: user id to field name to optional
field value.  Models users/uid/settings/profile in Firestore, as a map of
fields. -/
abbrev SettingsStore := String → String → Option String

/-- Embedding of `update_user_settings` (src/utils/db.py, lines 89-106):
Firestore `set` with merge, so a field present in `settings_data`
overwrites the stored field and every other field keeps its stored
value. -/
def update_user_settings (s : SettingsStore) (uid : String)
    (settings_data : List (String × String)) : SettingsStore :=
  fun u f =>
    if u = uid then
      match settings_data.lookup f with
      | some v => some v
      | none => s u f
    else s u f

/-- Embedding of the Remove-Task handler (src/main.py, lines 495-506):
the deletion of the selected name from the selected day's task dict is
guarded by a membership test; Python dict keys are unique, so deleting
the key removes exactly the entries whose key equals the name. -/
def remove_task (task_today : TaskDay) (task_to_remove : String) : TaskDay :=
  if (task_today.lookup task_to_remove).isSome then
    task_today.filter (fun p => !(p.1 == task_to_remove))
  else task_today

/-- C1: saving a month bucket and loading it back returns exactly the
saved triple, and a habit key absent from the saved habit set (for
instance one deleted in memory before the save) is absent from the loaded
result: the full-overwrite write does not resurrect deleted entries. -/
theorem round_trip_save_load (s : Store) (u m : String)
    (h : HabitSet) (j : JournalMap) (t : TaskMap) :
    load_month_data (save_month_data s u m h j t) u m = (h, j, t) ∧
    (∀ k : String, h.lookup k = none →
      (load_month_data (save_month_data s u m h j t) u m).1.lookup k = none) := by
  constructor
  · simp [load_month_data, save_month_data]
  · intro k hk
    simp [load_month_data, save_month_data, hk]

/-- Witness for `round_trip_save_load` at a concrete bucket in which the
habit "Gym" has been deleted: it is absent after the round trip. -/
theorem round_trip_save_load_witness :
    load_month_data
        (save_month_data Store.empty "u1" "2025-09"
          [("Read", [("1", true)])] [("1", "hi")] [("1", [("Buy milk", false)])])
        "u1" "2025-09"
      = ([("Read", [("1", true)])], [("1", "hi")], [("1", [("Buy milk", false)])]) ∧
    (load_month_data
        (save_month_data Store.empty "u1" "2025-09"
          [("Read", [("1", true)])] [("1", "hi")] [("1", [("Buy milk", false)])])
        "u1" "2025-09").1.lookup "Gym" = none := by
  have h := round_trip_save_load Store.empty "u1" "2025-09"
    [("Read", [("1", true)])] [("1", "hi")] [("1", [("Buy milk", false)])]
  exact ⟨h.1, h.2 "Gym" (by decide)⟩

/-- Looking up the erased key in a key-filtered association list yields
nothing. -/
lemma lookup_filterKey_self {α : Type} (l : List (String × α)) (k : String) :
    (l.filter (fun p => !(p.1 == k))).lookup k = none := by
  induction l with
  | nil => rfl
  | cons p rest ih =>
    by_cases h : p.1 = k
    · simpa [List.filter_cons, h] using ih
    · simpa [List.filter_cons, h, List.lookup,
        beq_eq_false_iff_ne.mpr (Ne.symm h)] using ih

/-- Filtering out one key leaves every other key's binding unchanged. -/
lemma lookup_filterKey_ne {α : Type} (l : List (String × α)) (k name : String)
    (hk : k ≠ name) :
    (l.filter (fun p => !(p.1 == name))).lookup k = l.lookup k := by
  induction l with
  | nil => rfl
  | cons p rest ih =>
    by_cases h : p.1 = name
    · simpa [List.filter_cons, h, List.lookup,
        beq_eq_false_iff_ne.mpr hk] using ih
    · by_cases hkp : k = p.1
      · simp [List.filter_cons, h, List.lookup, hkp]
      · simpa [List.filter_cons, h, List.lookup,
          beq_eq_false_iff_ne.mpr hkp] using ih

/-- C9: updating user settings changes only the supplied fields.  A field
absent from the partial record keeps its stored value, a supplied field
takes the supplied value, and other users' settings are untouched
(field-level merge). -/
theorem update_user_settings_merge (s : SettingsStore) (uid : String)
    (settings_data : List (String × String)) (f : String) :
    (settings_data.lookup f = none →
      update_user_settings s uid settings_data uid f = s uid f) ∧
    (∀ v, settings_data.lookup f = some v →
      update_user_settings s uid settings_data uid f = some v) ∧
    (∀ u, u ≠ uid → update_user_settings s uid settings_data u f = s u f) := by
  refine ⟨fun hnone => ?_, fun v hv => ?_, fun u hu => ?_⟩
  · simp [update_user_settings, hnone]
  · simp [update_user_settings, hv]
  · simp [update_user_settings, hu]

/-- Witness for `update_user_settings_merge`: updating only the name field
keeps the stored email and changes the name. -/
theorem update_user_settings_merge_witness :
    (List.lookup "email" [("name", "John")] = none ∧
      update_user_settings
        (fun u f => if u = "u1" ∧ f = "email" then some "a@b.c" else none)
        "u1" [("name", "John")] "u1" "email" = some "a@b.c") ∧
    (List.lookup "name" [("name", "John")] = some "John" ∧
      update_user_settings
        (fun u f => if u = "u1" ∧ f = "email" then some "a@b.c" else none)
        "u1" [("name", "John")] "u1" "name" = some "John") := by
  constructor
  · refine ⟨by decide, ?_⟩
    have h := (update_user_settings_merge
      (fun u f => if u = "u1" ∧ f = "email" then some "a@b.c" else none)
      "u1" [("name", "John")] "email").1 (by decide)
    simpa using h
  · refine ⟨by decide, ?_⟩
    exact (update_user_settings_merge
      (fun u f => if u = "u1" ∧ f = "email" then some "a@b.c" else none)
      "u1" [("name", "John")] "name").2.1 "John" (by decide)

/-- C10: removing a task name absent from the day's task dict leaves the
dict unchanged (the deletion is membership-guarded, a no-op rather than an
error), and removing a present name erases exactly that key: its binding
disappears and every other key's binding is unchanged. -/
theorem remove_task_spec (task_today : TaskDay) (name : String) :
    (task_today.lookup name = none → remove_task task_today name = task_today) ∧
    ((task_today.lookup name).isSome →
      (remove_task task_today name).lookup name = none ∧
      ∀ k, k ≠ name →
        (remove_task task_today name).lookup k = task_today.lookup k) := by
  constructor
  · intro hnone
    simp [remove_task, hnone]
  · intro hsome
    refine ⟨?_, fun k hk => ?_⟩
    · simp [remove_task, hsome, lookup_filterKey_self]
    · simp [remove_task, hsome, lookup_filterKey_ne task_today k name hk]

/-- Witness for `remove_task_spec`: removing the missing task "Walk" is a
no-op, and removing the present task "Buy milk" deletes exactly it. -/
theorem remove_task_spec_witness :
    (List.lookup "Walk" [("Buy milk", false), ("Call mom", true)] = none ∧
      remove_task [("Buy milk", false), ("Call mom", true)] "Walk"
        = [("Buy milk", false), ("Call mom", true)]) ∧
    ((List.lookup "Buy milk"
        [("Buy milk", false), ("Call mom", true)]).isSome ∧
      (remove_task [("Buy milk", false), ("Call mom", true)]
        "Buy milk").lookup "Buy milk" = none ∧
      (remove_task [("Buy milk", false), ("Call mom", true)]
        "Buy milk").lookup "Call mom" = some true) := by
  constructor
  · exact ⟨by decide,
      (remove_task_spec [("Buy milk", false), ("Call mom", true)] "Walk").1
        (by decide)⟩
  · refine ⟨by decide, ?_, ?_⟩
    · exact ((remove_task_spec [("Buy milk", false), ("Call mom", true)]
        "Buy milk").2 (by decide)).1
    · exact ((remove_task_spec [("Buy milk", false), ("Call mom", true)]
        "Buy milk").2 (by decide)).2 "Call mom" (by decide)

/-- Embedding of the score computation in `calculate_daily_score`
(src/utils/graphs.py, lines 29-59): for each day 1..31 (a fixed range,
independent of the actual month length), count the habits whose day dict
has the day's string key present with value true.  The returned
association list is the daily_scores dict handed to the chart. -/
def calculate_daily_score (habits_data : HabitSet) : List (String × Nat) :=
  (List.range' 1 31).map (fun day =>
    (toString day,
     habits_data.countP (fun p => (p.2.lookup (toString day)).getD false)))

/-- Embedding of the totals computation in `calculate_habit_consistency`
(src/utils/graphs.py, lines 67-92): each habit maps to the number of true
values among its recorded days. -/
def calculate_habit_consistency (habits_data : HabitSet) : List (String × Nat) :=
  habits_data.map (fun p => (p.1, p.2.countP (fun q => q.2)))

/-- A present-and-true test written with a default read equals the boolean
equality test against some true. -/
lemma getD_false_eq_beq (o : Option Bool) : o.getD false = (o == some true) := by
  cases o with
  | none => rfl
  | some b => cases b <;> rfl

/-- The decimal strings of the days 1..31 are pairwise distinct. -/
lemma pairwise_toString_range31 :
    (List.range' 1 31).Pairwise (fun a b => toString a ≠ toString b) := by
  decide

/-- Looking up the stringified key in a list built by mapping over
pairwise string-distinct naturals returns the value at that natural. -/
lemma lookup_map_toString {β : Type} (f : Nat → β) :
    ∀ (l : List Nat), l.Pairwise (fun a b => toString a ≠ toString b) →
      ∀ d ∈ l,
        (l.map (fun i => (toString i, f i))).lookup (toString d) = some (f d) := by
  intro l
  induction l with
  | nil => intro _ d hd; simp at hd
  | cons i rest ih =>
    intro hpw d hd
    rcases List.mem_cons.mp hd with rfl | hmem
    · simp [List.lookup]
    · have hne : toString i ≠ toString d :=
        (List.pairwise_cons.mp hpw).1 d hmem
      have hbeq : (toString d == toString i) = false :=
        beq_eq_false_iff_ne.mpr (Ne.symm hne)
      simp only [List.map_cons, List.lookup, hbeq]
      exact ih (List.pairwise_cons.mp hpw).2 d hmem

/-- A successful association-list lookup comes from a member pair. -/
lemma mem_of_lookup_eq_some {α : Type} {l : List (String × α)} {k : String}
    {v : α} (h : l.lookup k = some v) : (k, v) ∈ l := by
  induction l with
  | nil => simp [List.lookup] at h
  | cons p rest ih =>
    rw [List.lookup] at h
    by_cases hk : k = p.1
    · simp [hk] at h
      subst hk
      exact List.mem_cons.mpr (Or.inl (by rw [← h]))
    · simp [beq_eq_false_iff_ne.mpr hk] at h
      exact List.mem_cons.mpr (Or.inr (ih h))

/-- C4: for every habit set and every day 1..31, the daily score at the
day's string key is the number of habits whose day dict holds that key
with value true; a day for which no habit has data scores 0; and on the
empty habit set every one of the 31 days scores 0. -/
theorem daily_score_spec (H : HabitSet) (d : Nat) (h1 : 1 ≤ d) (h2 : d ≤ 31) :
    (calculate_daily_score H).lookup (toString d)
      = some (H.countP (fun p => p.2.lookup (toString d) == some true)) ∧
    ((∀ p ∈ H, p.2.lookup (toString d) = none) →
      (calculate_daily_score H).lookup (toString d) = some 0) ∧
    (∀ e ∈ calculate_daily_score ([] : HabitSet), e.2 = 0) := by
  have hmem : d ∈ List.range' 1 31 :=
    List.mem_range'_1.mpr ⟨h1, by omega⟩
  have hcount : ∀ dd : DayMap,
      ((dd.lookup (toString d)).getD false)
        = (dd.lookup (toString d) == some true) := by
    intro dd; exact getD_false_eq_beq _
  have hbase :
      (calculate_daily_score H).lookup (toString d)
        = some (H.countP (fun p => (p.2.lookup (toString d)).getD false)) := by
    have h := lookup_map_toString
      (fun day => H.countP (fun p => (p.2.lookup (toString day)).getD false))
      (List.range' 1 31) pairwise_toString_range31 d hmem
    simpa [calculate_daily_score] using h
  have hpred :
      H.countP (fun p => (p.2.lookup (toString d)).getD false)
        = H.countP (fun p => p.2.lookup (toString d) == some true) := by
    apply List.countP_congr
    intro p _
    simp [hcount p.2]
  refine ⟨by rw [hbase, hpred], fun hnone => ?_, fun e he => ?_⟩
  · have hz : H.countP (fun p => (p.2.lookup (toString d)).getD false) = 0 := by
      apply List.countP_eq_zero.mpr
      intro p hp
      simp [hnone p hp]
    rw [hbase, hz]
  · simp only [calculate_daily_score, List.mem_map] at he
    obtain ⟨i, _, rfl⟩ := he
    rfl

/-- Witness for `daily_score_spec` on a habit set in which only day 5 of
the habit "Read" is true: day 5 scores 1 and day 7, where no habit has
data, scores 0. -/
theorem daily_score_spec_witness :
    (calculate_daily_score [("Read", [("5", true), ("6", false)])]).lookup
        (toString 5)
      = some (List.countP
          (fun p => p.2.lookup (toString 5) == some true)
          [("Read", [("5", true), ("6", false)])]) ∧
    (calculate_daily_score [("Read", [("5", true), ("6", false)])]).lookup
        (toString 7) = some 0 := by
  constructor
  · exact (daily_score_spec [("Read", [("5", true), ("6", false)])] 5
      (by decide) (by decide)).1
  · exact (daily_score_spec [("Read", [("5", true), ("6", false)])] 7
      (by decide) (by decide)).2.1 (by decide)

/-- In an association list whose keys are pairwise distinct, looking up
the key of a member pair after mapping a key-preserving function over the
list returns the mapped value of that pair. -/
lemma lookup_map_of_nodup {α β : Type} (g : String × α → β) :
    ∀ (l : List (String × α)), (l.map Prod.fst).Nodup →
      ∀ p ∈ l, (l.map (fun q => (q.1, g q))).lookup p.1 = some (g p) := by
  intro l
  induction l with
  | nil => intro _ p hp; simp at hp
  | cons q rest ih =>
    intro hnd p hp
    rw [List.map_cons] at hnd
    obtain ⟨hq, hrest⟩ := List.nodup_cons.mp hnd
    rcases List.mem_cons.mp hp with rfl | hmem
    · simp [List.lookup]
    · have hne : p.1 ≠ q.1 := by
        intro hcontra
        exact hq (hcontra ▸ List.mem_map_of_mem Prod.fst hmem)
      have hbeq : (p.1 == q.1) = false := beq_eq_false_iff_ne.mpr hne
      simp only [List.map_cons, List.lookup, hbeq]
      exact ih hrest p hmem

/-- Summing the per-habit true counts gives the count of true entries in
the concatenation of all the day dicts. -/
lemma sum_countP_flatMap (H : HabitSet) :
    ((H.map (fun p => p.2.countP (fun q => q.2))).sum)
      = (H.flatMap (fun p => p.2)).countP (fun q => q.2) := by
  induction H with
  | nil => rfl
  | cons p rest ih =>
    simp [List.flatMap_cons, List.countP_append, ih]

/-- C5: the habit-consistency totals have exactly the habit names of the
habit set as keys (in order), each habit name maps to the number of its
recorded days carrying true, the values sum to the total number of true
entries across the habit set, and the empty habit set yields the empty
result. -/
theorem habit_consistency_spec (H : HabitSet)
    (hnd : (H.map Prod.fst).Nodup) :
    (calculate_habit_consistency H).map Prod.fst = H.map Prod.fst ∧
    (∀ p ∈ H, (calculate_habit_consistency H).lookup p.1
      = some ((p.2.filter (fun q => q.2)).length)) ∧
    ((calculate_habit_consistency H).map Prod.snd).sum
      = (H.flatMap (fun p => p.2)).countP (fun q => q.2) ∧
    calculate_habit_consistency ([] : HabitSet) = [] := by
  refine ⟨?_, fun p hp => ?_, ?_, rfl⟩
  · simp [calculate_habit_consistency]
  · have h := lookup_map_of_nodup (fun q => q.2.countP (fun r => r.2)) H hnd p hp
    simpa [calculate_habit_consistency, List.countP_eq_length_filter] using h
  · have h := sum_countP_flatMap H
    simpa [calculate_habit_consistency, Function.comp] using h

/-- Witness for `habit_consistency_spec` on two habits: "Gym" with two
true days and "Read" with one; keys, posts and sum all check out. -/
theorem habit_consistency_spec_witness :
    (List.map Prod.fst
        [("Gym", [("1", true), ("2", true), ("3", false)]),
         ("Read", [("1", false), ("2", true)])] : List String).Nodup ∧
    (calculate_habit_consistency
        [("Gym", [("1", true), ("2", true), ("3", false)]),
         ("Read", [("1", false), ("2", true)])]).lookup "Gym" = some 2 ∧
    ((calculate_habit_consistency
        [("Gym", [("1", true), ("2", true), ("3", false)]),
         ("Read", [("1", false), ("2", true)])]).map Prod.snd).sum = 3 := by
  have hnd : (List.map Prod.fst
      [("Gym", [("1", true), ("2", true), ("3", false)]),
       ("Read", [("1", false), ("2", true)])] : List String).Nodup := by
    decide
  have h := habit_consistency_spec
    [("Gym", [("1", true), ("2", true), ("3", false)]),
     ("Read", [("1", false), ("2", true)])] hnd
  refine ⟨hnd, ?_, ?_⟩
  · have hg := h.2.1 ("Gym", [("1", true), ("2", true), ("3", false)])
      (by simp)
    simpa using hg
  · rw [h.2.2.1]
    decide

/-- Stable descending insertion by total: the new pair goes in front of
the first list element whose total is not larger, so among equal totals
an earlier-inserted pair stays in front. -/
def insertDescByVal (x : String × Nat) : List (String × Nat) → List (String × Nat)
  | [] => [x]
  | y :: ys => if y.2 ≤ x.2 then x :: y :: ys else y :: insertDescByVal x ys

/-- Stable descending sort by total. -/
def sortDescByVal : List (String × Nat) → List (String × Nat)
  | [] => []
  | x :: xs => insertDescByVal x (sortDescByVal xs)

/-- Embedding of the bar ordering of `plot_habit_consistency`
(src/utils/graphs.py, lines 144-187): Python's built-in sorted on the
(habit, total) pairs keyed by the total with reverse set is a stable
descending sort, which the stable insertion sort above computes. -/
def plot_habit_consistency (habit_totals : List (String × Nat)) :
    List (String × Nat) :=
  sortDescByVal habit_totals

/-- Descending insertion produces a permutation of consing the element. -/
lemma insertDescByVal_perm (x : String × Nat) (l : List (String × Nat)) :
    (insertDescByVal x l).Perm (x :: l) := by
  induction l with
  | nil => exact List.Perm.refl _
  | cons y ys ih =>
    by_cases h : y.2 ≤ x.2
    · simp [insertDescByVal, h]
    · simp only [insertDescByVal, if_neg h]
      exact (ih.cons y).trans (List.Perm.swap x y ys)

/-- Descending sort produces a permutation of its input. -/
lemma sortDescByVal_perm (l : List (String × Nat)) :
    (sortDescByVal l).Perm l := by
  induction l with
  | nil => exact List.Perm.refl _
  | cons x xs ih =>
    exact (insertDescByVal_perm x (sortDescByVal xs)).trans (ih.cons x)

/-- Descending insertion into a descending-sorted list stays sorted. -/
lemma insertDescByVal_sorted (x : String × Nat) (l : List (String × Nat))
    (hl : l.Pairwise (fun a b => b.2 ≤ a.2)) :
    (insertDescByVal x l).Pairwise (fun a b => b.2 ≤ a.2) := by
  induction l with
  | nil => simp [insertDescByVal]
  | cons y ys ih =>
    obtain ⟨hy, hys⟩ := List.pairwise_cons.mp hl
    by_cases h : y.2 ≤ x.2
    · rw [insertDescByVal, if_pos h]
      refine List.pairwise_cons.mpr ⟨?_, hl⟩
      intro b hb
      rcases List.mem_cons.mp hb with rfl | hmem
      · exact h
      · exact le_trans (hy b hmem) h
    · rw [insertDescByVal, if_neg h]
      refine List.pairwise_cons.mpr ⟨?_, ih hys⟩
      intro b hb
      have hb' := (insertDescByVal_perm x ys).mem_iff.mp hb
      rcases List.mem_cons.mp hb' with rfl | hmem
      · exact le_of_lt (Nat.lt_of_not_le h)
      · exact hy b hmem

/-- Descending sort produces a descending-sorted list. -/
lemma sortDescByVal_sorted (l : List (String × Nat)) :
    (sortDescByVal l).Pairwise (fun a b => b.2 ≤ a.2) := by
  induction l with
  | nil => simp [sortDescByVal]
  | cons x xs ih => exact insertDescByVal_sorted x (sortDescByVal xs) ih

/-- Filtering a fixed total out of a descending insertion: the inserted
pair lands in front of the equal-total group because every element passed
over has a strictly larger total. -/
lemma filter_insertDescByVal (x : String × Nat) (t : Nat) :
    ∀ (l : List (String × Nat)), l.Pairwise (fun a b => b.2 ≤ a.2) →
      (insertDescByVal x l).filter (fun e => e.2 == t)
        = if x.2 = t then x :: l.filter (fun e => e.2 == t)
          else l.filter (fun e => e.2 == t) := by
  intro l
  induction l with
  | nil =>
    intro _
    by_cases hx : x.2 = t <;> simp [insertDescByVal, List.filter_cons, hx]
  | cons y ys ih =>
    intro hl
    obtain ⟨_, hys⟩ := List.pairwise_cons.mp hl
    by_cases h : y.2 ≤ x.2
    · rw [insertDescByVal, if_pos h]
      by_cases hx : x.2 = t <;> simp [List.filter_cons, hx]
    · rw [insertDescByVal, if_neg h]
      have hlt : x.2 < y.2 := Nat.lt_of_not_le h
      by_cases hy : y.2 = t
      · have hx : ¬x.2 = t := by omega
        simp [List.filter_cons, hy, hx, ih hys]
      · by_cases hx : x.2 = t <;>
          simp [List.filter_cons, hy, hx, ih hys]

/-- The descending sort is stable: the pairs carrying any fixed total
appear in the sorted output in their input order. -/
lemma filter_sortDescByVal (t : Nat) (l : List (String × Nat)) :
    (sortDescByVal l).filter (fun e => e.2 == t)
      = l.filter (fun e => e.2 == t) := by
  induction l with
  | nil => rfl
  | cons x xs ih =>
    rw [sortDescByVal,
      filter_insertDescByVal x t (sortDescByVal xs) (sortDescByVal_sorted xs)]
    by_cases hx : x.2 = t <;> simp [List.filter_cons, hx, ih]

/-- C6: the consistency chart lists exactly the (habit, total) pairs of
the consistency computation, ordered descending by total, and the pairs
of any equal-total group appear in the original insertion order of the
habit set (the sort is stable on ties). -/
theorem habit_consistency_order (H : HabitSet) :
    (plot_habit_consistency (calculate_habit_consistency H)).Perm
        (calculate_habit_consistency H) ∧
    (plot_habit_consistency (calculate_habit_consistency H)).Pairwise
        (fun a b => b.2 ≤ a.2) ∧
    ∀ t, (plot_habit_consistency (calculate_habit_consistency H)).filter
          (fun e => e.2 == t)
        = (calculate_habit_consistency H).filter (fun e => e.2 == t) := by
  exact ⟨sortDescByVal_perm _, sortDescByVal_sorted _,
    fun t => filter_sortDescByVal t _⟩

/-- Decimal digit accumulator for `strToNat`. -/
def parseDigits : List Char → Nat → Option Nat
  | [], acc => some acc
  | c :: rest, acc =>
    if c.isDigit then parseDigits rest (acc * 10 + (c.toNat - 48)) else none

/-- Model of Python int() applied to the decimal day keys of a habit's
day dict (the keys the app creates are always decimal strings; on other
strings Python would raise, which the claims exclude by
well-formedness). -/
def strToNat (s : String) : Nat :=
  match s.data with
  | [] => 0
  | cs => (parseDigits cs 0).getD 0

/-- Ascending insertion of a day number. -/
def insertAsc (x : Nat) : List Nat → List Nat
  | [] => [x]
  | y :: ys => if x ≤ y then x :: y :: ys else y :: insertAsc x ys

/-- Ascending sort of day numbers, modelling Python sorted on ints. -/
def sortAsc : List Nat → List Nat
  | [] => []
  | x :: xs => insertAsc x (sortAsc xs)

/-- Embedding of one habit's series in `plot_individual_trends`
(src/utils/graphs.py, lines 194-230): the habit's day dict is fetched with
an empty-dict default, its keys are converted to ints and sorted
ascending, and each day is paired with 1 when the dict holds true at the
day's string key and 0 otherwise. -/
def trend_series (habits_data : HabitSet) (habit_name : String) :
    List (Nat × Nat) :=
  let days_dict := (habits_data.lookup habit_name).getD []
  let days := sortAsc (days_dict.map (fun p => strToNat p.1))
  days.map (fun d =>
    (d, if (days_dict.lookup (toString d)).getD false then 1 else 0))

/-- Embedding of `plot_individual_trends`: one series per selected habit
name, in selection order. -/
def plot_individual_trends (habits_data : HabitSet)
    (selected_habits : List String) : List (List (Nat × Nat)) :=
  selected_habits.map (fun name => trend_series habits_data name)

/-- Ascending insertion produces a permutation of consing the element. -/
lemma insertAsc_perm (x : Nat) (l : List Nat) :
    (insertAsc x l).Perm (x :: l) := by
  induction l with
  | nil => exact List.Perm.refl _
  | cons y ys ih =>
    by_cases h : x ≤ y
    · simp [insertAsc, h]
    · simp only [insertAsc, if_neg h]
      exact (ih.cons y).trans (List.Perm.swap x y ys)

/-- Ascending sort produces a permutation of its input. -/
lemma sortAsc_perm (l : List Nat) : (sortAsc l).Perm l := by
  induction l with
  | nil => exact List.Perm.refl _
  | cons x xs ih =>
    exact (insertAsc_perm x (sortAsc xs)).trans (ih.cons x)

/-- Ascending insertion into an ascending-sorted list stays sorted. -/
lemma insertAsc_sorted (x : Nat) (l : List Nat)
    (hl : l.Pairwise (· ≤ ·)) : (insertAsc x l).Pairwise (· ≤ ·) := by
  induction l with
  | nil => simp [insertAsc]
  | cons y ys ih =>
    obtain ⟨hy, hys⟩ := List.pairwise_cons.mp hl
    by_cases h : x ≤ y
    · rw [insertAsc, if_pos h]
      refine List.pairwise_cons.mpr ⟨?_, hl⟩
      intro b hb
      rcases List.mem_cons.mp hb with rfl | hmem
      · exact h
      · exact le_trans h (hy b hmem)
    · rw [insertAsc, if_neg h]
      refine List.pairwise_cons.mpr ⟨?_, ih hys⟩
      intro b hb
      have hb' := (insertAsc_perm x ys).mem_iff.mp hb
      rcases List.mem_cons.mp hb' with rfl | hmem
      · exact le_of_lt (Nat.lt_of_not_le h)
      · exact hy b hmem

/-- Ascending sort produces an ascending-sorted list. -/
lemma sortAsc_sorted (l : List Nat) : (sortAsc l).Pairwise (· ≤ ·) := by
  induction l with
  | nil => simp [sortAsc]
  | cons x xs ih => exact insertAsc_sorted x (sortAsc xs) ih

/-- C7: each selected habit name yields a series in the trends chart; a
name with no habit data yields the empty series (no error); and for a
name with day dict dd the series days are exactly dd's keys read as ints,
strictly ascending, the series length is the number of dd's day keys, and
each value is 1 exactly when the day's key is present with true — a key
present with false contributes the pair value 0, an absent day is
omitted. -/
theorem individual_trends_spec (H : HabitSet) (sel : List String)
    (name : String) (hname : name ∈ sel)
    (hwf : ∀ p ∈ H, (p.2.map Prod.fst).Nodup ∧
      ∀ q ∈ p.2, toString (strToNat q.1) = q.1) :
    trend_series H name ∈ plot_individual_trends H sel ∧
    (H.lookup name = none → trend_series H name = []) ∧
    (∀ dd : DayMap, H.lookup name = some dd →
      ((trend_series H name).map Prod.fst).Perm
          (dd.map (fun q => strToNat q.1)) ∧
      ((trend_series H name).map Prod.fst).Pairwise (· < ·) ∧
      (trend_series H name).length = dd.length ∧
      ∀ e ∈ trend_series H name,
        e.2 = if dd.lookup (toString e.1) = some true then 1 else 0) := by
  refine ⟨List.mem_map_of_mem (fun n => trend_series H n) hname,
    fun hnone => ?_, fun dd hdd => ?_⟩
  · simp [trend_series, hnone, sortAsc]
  · have hmem : (name, dd) ∈ H := mem_of_lookup_eq_some hdd
    obtain ⟨hkeys, hcanon⟩ := hwf (name, dd) hmem
    have hfst : (trend_series H name).map Prod.fst
        = sortAsc (dd.map (fun q => strToNat q.1)) := by
      simp [trend_series, hdd, List.map_map, Function.comp_def]
    have hnodup : (dd.map (fun q => strToNat q.1)).Nodup := by
      have h1 : (dd.map (fun q => strToNat q.1))
          = (dd.map Prod.fst).map strToNat := by
        simp [List.map_map, Function.comp]
      rw [h1]
      apply List.Nodup.map_on ?_ hkeys
      intro x hx y hy hxy
      obtain ⟨qx, hqx, rfl⟩ := List.mem_map.mp hx
      obtain ⟨qy, hqy, rfl⟩ := List.mem_map.mp hy
      rw [← hcanon qx hqx, ← hcanon qy hqy, hxy]
    refine ⟨?_, ?_, ?_, fun e he => ?_⟩
    · rw [hfst]
      exact sortAsc_perm _
    · rw [hfst]
      have hle := sortAsc_sorted (dd.map (fun q => strToNat q.1))
      have hne : (sortAsc (dd.map (fun q => strToNat q.1))).Nodup :=
        ((sortAsc_perm _).nodup_iff).mpr hnodup
      exact (hle.and hne).imp (fun hab => lt_of_le_of_ne hab.1 hab.2)
    · have hlen : (trend_series H name).length
          = ((trend_series H name).map Prod.fst).length := by
        simp
      rw [hlen, hfst, (sortAsc_perm _).length_eq, List.length_map]
    · simp only [trend_series, hdd, Option.getD_some, List.mem_map] at he
      obtain ⟨d, _, rfl⟩ := he
      cases hl : dd.lookup (toString d) with
      | none => simp [hl]
      | some b => cases b <;> simp [hl]

/-- Witness for `individual_trends_spec`: the habit "Gym" recorded days
2 (true) and 10 (false); its series is the two ascending pairs, and the
unknown selected name "Unknown" yields an empty series without error. -/
theorem individual_trends_spec_witness :
    trend_series [("Gym", [("10", false), ("2", true)])] "Gym"
        = [(2, 1), (10, 0)] ∧
    trend_series [("Gym", [("10", false), ("2", true)])] "Unknown" = [] ∧
    (trend_series [("Gym", [("10", false), ("2", true)])] "Gym").length = 2 := by
  have hwf : ∀ p ∈ ([("Gym", [("10", false), ("2", true)])] : HabitSet),
      ((p.2.map Prod.fst).Nodup ∧
        ∀ q ∈ p.2, toString (strToNat q.1) = q.1) := by
    decide
  have hu := (individual_trends_spec [("Gym", [("10", false), ("2", true)])]
    ["Gym", "Unknown"] "Unknown" (by decide) hwf).2.1 (by decide)
  have hg := ((individual_trends_spec [("Gym", [("10", false), ("2", true)])]
    ["Gym", "Unknown"] "Gym" (by decide) hwf).2.2
    [("10", false), ("2", true)] (by decide)).2.2.1
  refine ⟨?_, hu, by rw [hg]; rfl⟩
  show trend_series [("Gym", [("10", false), ("2", true)])] "Gym"
    = [(2, 1), (10, 0)]
  decide

/-- Gregorian leap-year rule, as used by the pandas Period backing the
Add-Habit handler. -/
def isLeapYear (year : Nat) : Bool :=
  year % 4 == 0 && (year % 100 != 0 || year % 400 == 0)

/-- Number of days of a calendar month: models the external
pandas Period days_in_month read in the Add-Habit handler
(src/main.py, line 333). -/
def days_in_month (year month : Nat) : Nat :=
  if month = 2 then (if isLeapYear year then 29 else 28)
  else if month = 4 ∨ month = 6 ∨ month = 9 ∨ month = 11 then 30
  else 31

/-- Python dict assignment on an association list: an existing key is
overwritten in place, a new key is appended (insertion order). -/
def kvSet {α : Type} (m : List (String × α)) (k : String) (v : α) :
    List (String × α) :=
  if (m.lookup k).isSome then
    m.map (fun p => if p.1 = k then (k, v) else p)
  else m ++ [(k, v)]

/-- Embedding of the Add-Habit handler (src/main.py, lines 326-345): a
non-empty habit name is bound to a fresh day dict with one entry per day
of the selected month, every day false; an empty name is rejected and
the habit set is unchanged. -/
def add_habit (habits : HabitSet) (new_habit_name : String)
    (year month : Nat) : HabitSet :=
  if new_habit_name = "" then habits
  else kvSet habits new_habit_name
    ((List.range' 1 (days_in_month year month)).map (fun d => (toString d, false)))

/-- A key absent from the first list is looked up in the second. -/
lemma lookup_append_of_none {α : Type} {m : List (String × α)} {k : String}
    (h : m.lookup k = none) (l : List (String × α)) :
    (m ++ l).lookup k = l.lookup k := by
  induction m with
  | nil => rfl
  | cons p rest ih =>
    rw [List.lookup] at h
    rcases hb : (k == p.1) with _ | _
    · rw [hb] at h
      simp only [List.cons_append, List.lookup, hb]
      exact ih h
    · rw [hb] at h
      simp at h

/-- Overwriting a present key in place binds it to the new value. -/
lemma lookup_map_overwrite {α : Type} (k : String) (v : α) :
    ∀ m : List (String × α), (m.lookup k).isSome →
      (m.map (fun p => if p.1 = k then (k, v) else p)).lookup k = some v := by
  intro m
  induction m with
  | nil => intro h; simp [List.lookup] at h
  | cons p rest ih =>
    intro h
    obtain ⟨a, b⟩ := p
    by_cases hak : a = k
    · subst hak
      simp only [List.map_cons, if_pos rfl]
      simp [List.lookup]
    · have hbeq : (k == a) = false := beq_eq_false_iff_ne.mpr (Ne.symm hak)
      rw [List.lookup, hbeq] at h
      simp only [List.map_cons]
      rw [show (if ((a, b) : String × α).1 = k then (k, v) else (a, b)) = (a, b)
        from if_neg hak]
      rw [List.lookup, hbeq]
      exact ih h

/-- Dict assignment binds the assigned key to the assigned value. -/
lemma lookup_kvSet {α : Type} (m : List (String × α)) (k : String) (v : α) :
    (kvSet m k v).lookup k = some v := by
  unfold kvSet
  split
  · exact lookup_map_overwrite k v m (by assumption)
  · rename_i h
    have hnone : m.lookup k = none := by
      cases hl : m.lookup k with
      | none => rfl
      | some w => rw [hl] at h; simp at h
    rw [lookup_append_of_none hnone]
    simp [List.lookup]

/-- Days 1..n of a month are pairwise distinct as decimal strings. -/
lemma pairwise_toString_range_le (n : Nat) (hn : n ≤ 31) :
    (List.range' 1 n).Pairwise (fun a b => toString a ≠ toString b) := by
  have h := List.range'_append 1 n (31 - n) 1
  rw [show 31 - n + n = 31 by omega] at h
  have hsub : (List.range' 1 n).Sublist (List.range' 1 31) := by
    rw [← h]
    exact List.sublist_append_left _ _
  exact List.Pairwise.sublist hsub pairwise_toString_range31

/-- Every month has at most 31 days. -/
lemma days_in_month_le (year month : Nat) : days_in_month year month ≤ 31 := by
  unfold days_in_month
  split
  · split <;> omega
  · split <;> omega

/-- C8: adding a habit with a non-empty name binds that name to a day
dict whose keys are exactly the decimal strings of the days 1 up to the
month's day count, in order, with every value false; each valid day's
string key is bound to false; and on the empty habit set the result is
the single new habit. -/
theorem add_habit_spec (H : HabitSet) (name : String) (year month : Nat)
    (hname : name ≠ "") :
    (add_habit H name year month).lookup name
      = some ((List.range' 1 (days_in_month year month)).map
          (fun d => (toString d, false))) ∧
    (((List.range' 1 (days_in_month year month)).map
        (fun d => (toString d, false))).map Prod.fst
      = (List.range' 1 (days_in_month year month)).map (fun d => toString d)) ∧
    (∀ q ∈ (List.range' 1 (days_in_month year month)).map
        (fun d => (toString d, false)), q.2 = false) ∧
    (∀ d, 1 ≤ d → d ≤ days_in_month year month →
      (((List.range' 1 (days_in_month year month)).map
        (fun d => (toString d, false))).lookup (toString d)) = some false) ∧
    add_habit [] name year month
      = [(name, (List.range' 1 (days_in_month year month)).map
          (fun d => (toString d, false)))] := by
  refine ⟨?_, ?_, ?_, fun d hd1 hd2 => ?_, ?_⟩
  · rw [add_habit, if_neg hname]
    exact lookup_kvSet H name _
  · simp [List.map_map, Function.comp_def]
  · intro q hq
    obtain ⟨i, _, rfl⟩ := List.mem_map.mp hq
    rfl
  · have hmem : d ∈ List.range' 1 (days_in_month year month) :=
      List.mem_range'_1.mpr ⟨hd1, by omega⟩
    exact lookup_map_toString (fun _ => false) _
      (pairwise_toString_range_le _ (days_in_month_le year month)) d hmem
  · rw [add_habit, if_neg hname]
    rfl

/-- Witness for `add_habit_spec`: September 2025 has 30 days; adding
"Read" to the empty habit set creates exactly the 30-entry all-false day
dict, day 30 is present and false. -/
theorem add_habit_spec_witness :
    days_in_month 2025 9 = 30 ∧
    (add_habit [] "Read" 2025 9).lookup "Read"
      = some ((List.range' 1 30).map (fun d => (toString d, false))) ∧
    (((List.range' 1 30).map (fun d => (toString d, false))).lookup
        (toString 30)) = some false ∧
    add_habit [] "Read" 2025 9
      = [("Read", (List.range' 1 30).map (fun d => (toString d, false)))] := by
  have h30 : days_in_month 2025 9 = 30 := by decide
  have h := add_habit_spec [] "Read" 2025 9 (by decide)
  rw [h30] at h
  exact ⟨h30, h.1, h.2.2.2.1 30 (by decide) (by decide), h.2.2.2.2⟩

/-- The in-memory month bucket held in st.session_state.data
(src/main.py, lines 128-144): habits, journal, tasks and the key of the
loaded month, none when no month has been loaded yet. -/
structure CacheData where
  habits : HabitSet
  journal : JournalMap
  tasks : TaskMap
  month_key : Option String
deriving DecidableEq

/-- A user session: the durable store together with the working bucket
and the last-saved snapshot st.session_state.savedchanges. -/
structure SessionState where
  store : Store
  data : CacheData
  savedchanges : CacheData

/-- Store operations observable at the adapter boundary, listed in the
order the code performs them. -/
inductive StoreEvent where
  | write (uid month_key : String) (habits : HabitSet)
      (journal : JournalMap) (tasks : TaskMap) : StoreEvent
  | read (uid month_key : String) : StoreEvent
deriving DecidableEq

/-- Whether a store event is a write. -/
def StoreEvent.isWrite : StoreEvent → Bool
  | write _ _ _ _ _ => true
  | read _ _ => false

/-- Embedding of the save function (src/main.py, lines 189-203), the
flush used by the explicit Save-Changes button, the logout handler and
the interaction-based autosave: the bucket is persisted only when it
differs from the savedchanges snapshot by deep equality, after which the
snapshot is set to the bucket.  The result pairs the new session state
with the store events performed. -/
def save_trigger (uid month_key : String) (s : SessionState) :
    SessionState × List StoreEvent :=
  if s.data = s.savedchanges then (s, [])
  else
    ({ store := save_month_data s.store uid month_key
         s.data.habits s.data.journal s.data.tasks
       data := s.data
       savedchanges := s.data },
     [StoreEvent.write uid month_key s.data.habits s.data.journal s.data.tasks])

/-- Embedding of the month-change handling block (src/main.py, lines
254-278): when the selected month key differs from the loaded one, the
old month's bucket — when a month is loaded — is written first
(unconditionally, with no dirtiness test), then the new month is loaded
from the store into the cache, and the snapshot is set to the freshly
loaded bucket. -/
def month_change (uid : String) (s : SessionState) (new_month_key : String) :
    SessionState × List StoreEvent :=
  if s.data.month_key = some new_month_key then (s, [])
  else
    let store1 := match s.data.month_key with
      | some old_key => save_month_data s.store uid old_key
          s.data.habits s.data.journal s.data.tasks
      | none => s.store
    let evts1 : List StoreEvent := match s.data.month_key with
      | some old_key =>
          [StoreEvent.write uid old_key s.data.habits s.data.journal s.data.tasks]
      | none => []
    let loaded := load_month_data store1 uid new_month_key
    let d : CacheData := ⟨loaded.1, loaded.2.1, loaded.2.2, some new_month_key⟩
    (⟨store1, d, d⟩, evts1 ++ [StoreEvent.read uid new_month_key])

/-- C2: switching a session holding a Dirty bucket for month A to a
different month B performs exactly a write of A's in-memory bucket
followed by the read of B — so the store's state for A afterwards equals
the in-memory bucket at the moment of the switch, and the cache's
month-B contents come from the store as it is after A's write: no
month-B data enters the cache before month A is persisted. -/
theorem month_switch_ordering (uid : String) (s : SessionState)
    (A B : String) (hA : s.data.month_key = some A) (hAB : A ≠ B)
    (hdirty : s.data ≠ s.savedchanges) :
    (month_change uid s B).2
      = [StoreEvent.write uid A s.data.habits s.data.journal s.data.tasks,
         StoreEvent.read uid B] ∧
    load_month_data (month_change uid s B).1.store uid A
      = (s.data.habits, s.data.journal, s.data.tasks) ∧
    (month_change uid s B).1.data
      = ⟨(load_month_data (save_month_data s.store uid A
            s.data.habits s.data.journal s.data.tasks) uid B).1,
         (load_month_data (save_month_data s.store uid A
            s.data.habits s.data.journal s.data.tasks) uid B).2.1,
         (load_month_data (save_month_data s.store uid A
            s.data.habits s.data.journal s.data.tasks) uid B).2.2,
         some B⟩ := by
  refine ⟨?_, ?_, ?_⟩
  · simp [month_change, hA, hAB]
  · simp [month_change, hA, hAB, load_month_data, save_month_data]
  · simp [month_change, hA, hAB]

/-- Witness for `month_switch_ordering`: a session dirty in 2025-01
switching to 2025-02 writes January's bucket and then reads February. -/
theorem month_switch_ordering_witness :
    (⟨Store.empty,
       ⟨[("Gym", [("1", true)])], [], [], some "2025-01"⟩,
       ⟨[], [], [], some "2025-01"⟩⟩ : SessionState).data.month_key
      = some "2025-01" ∧
    (month_change "u1"
      ⟨Store.empty,
       ⟨[("Gym", [("1", true)])], [], [], some "2025-01"⟩,
       ⟨[], [], [], some "2025-01"⟩⟩ "2025-02").2
      = [StoreEvent.write "u1" "2025-01" [("Gym", [("1", true)])] [] [],
         StoreEvent.read "u1" "2025-02"] ∧
    load_month_data
      (month_change "u1"
        ⟨Store.empty,
         ⟨[("Gym", [("1", true)])], [], [], some "2025-01"⟩,
         ⟨[], [], [], some "2025-01"⟩⟩ "2025-02").1.store "u1" "2025-01"
      = ([("Gym", [("1", true)])], [], []) := by
  have h := month_switch_ordering "u1"
    ⟨Store.empty,
     ⟨[("Gym", [("1", true)])], [], [], some "2025-01"⟩,
     ⟨[], [], [], some "2025-01"⟩⟩
    "2025-01" "2025-02" rfl (by decide) (by decide)
  exact ⟨rfl, h.1, h.2.1⟩

/-- A session whose working bucket deep-equals its snapshot (Clean), with
January 2025 loaded. -/
def cleanSession : SessionState :=
  ⟨Store.empty,
   ⟨[("Gym", [("1", true)])], [("1", "note")], [], some "2025-01"⟩,
   ⟨[("Gym", [("1", true)])], [("1", "note")], [], some "2025-01"⟩⟩

/-- Counterexample to C3 as stated: the month switch is one of the flush
triggers, yet on a Clean cache (bucket deep-equal to the snapshot) the
month-change block still performs a store write, because it persists the
outgoing month unconditionally instead of flushing only when Dirty. -/
theorem clean_month_switch_still_writes :
    cleanSession.data = cleanSession.savedchanges ∧
    (month_change "u1" cleanSession "2025-02").2.countP StoreEvent.isWrite
      = 1 := by
  exact ⟨rfl, by decide⟩

/-- C3 amended: the save-based flush triggers — the explicit Save button,
the logout save and the periodic autosave, which all run the save
function — perform no store write and leave the session unchanged when
the bucket is Clean; Cleanness is deep equality with the snapshot, so a
bucket edited and then reverted to its original value flushes to
nothing.  (The month switch, by contrast, writes the outgoing bucket
even when Clean: see the counterexample.) -/
theorem clean_save_no_write (uid month_key : String) (s : SessionState)
    (hclean : s.data = s.savedchanges) :
    save_trigger uid month_key s = (s, []) := by
  simp [save_trigger, hclean]

/-- Witness for `clean_save_no_write`: a Clean concrete session flushes
to no write on the save path. -/
theorem clean_save_no_write_witness :
    cleanSession.data = cleanSession.savedchanges ∧
    save_trigger "u1" "2025-01" cleanSession = (cleanSession, []) :=
  ⟨rfl, clean_save_no_write "u1" "2025-01" cleanSession rfl⟩
